import Mathlib

/-!
Verification of the rule-api crawl-permission service.

The definitions below are a shallow embedding of the Go sources:
`util` (URL/domain extraction), `internal/cache` (memcached client with
SHA-256 domain keys and a JSON marshalling envelope), `internal/persistence`
(the SQL rule repository), and `handler` (the `GetAllowedCrawl` resolution
handler). External collaborators (Go net/url, the memcached provider, the
SQL store, grobotstxt) are modelled at the granularity the handlers use
them: the provider store is a key-value list, the SQL table is a list of
rows, and the directive evaluator is an oracle parameter.
-/

namespace RuleApi

/-!
URL hostname extraction: model of the behaviour of Go `net/url.Parse`
followed by `URL.Hostname()` as used by `util.GetDomain`, for URLs of the
shape `scheme://[userinfo@]host[:port][/path][?query][#fragment]`.
Go preserves the letter case of the host (only the scheme is lowercased);
a string without a `://` separator parses with an empty Host. Inputs that
`net/url.Parse` rejects outright are folded into the empty-hostname
result: `util.GetDomain` maps both to its error branch. IPv6 bracket
hosts are not modelled (the service is never pointed at them here).
-/

/-- Characters of the authority component: everything up to the first
`/`, `?` or `#`. -/
def takeUntilDelims : List Char → List Char
  | [] => []
  | c :: rest => if c = '/' ∨ c = '?' ∨ c = '#' then [] else c :: takeUntilDelims rest

/-- Suffix after the first `://` occurrence, if any. -/
def afterSchemeSep : List Char → Option (List Char)
  | ':' :: '/' :: '/' :: rest => some rest
  | _ :: rest => afterSchemeSep rest
  | [] => none

/-- Drop the userinfo part: Go takes the host to be the segment after the
last `@` of the authority. -/
def afterLastAt (cs : List Char) : List Char :=
  ((cs.reverse.takeWhile (fun c => c != '@')).reverse)

/-- Drop a trailing `:port` (digits only, possibly empty), as Go
`URL.Hostname()` does via `validOptionalPort`. -/
def stripPort (cs : List Char) : List Char :=
  let r := cs.reverse
  let ds := r.takeWhile (fun c => c.isDigit)
  match r.drop ds.length with
  | ':' :: more => more.reverse
  | _ => cs

/-- The hostname Go reports for a raw URL string, empty when absent. -/
def urlHostname (s : String) : String :=
  match afterSchemeSep s.data with
  | none => ""
  | some rest => String.mk (stripPort (afterLastAt (takeUntilDelims rest)))

/-- Embeds `util.GetDomain`: parse the url and return its hostname;
`none` is the error branch (parse failure or empty hostname). -/
def GetDomain (url : String) : Option String :=
  let h := urlHostname url
  if h = "" then none else some h

/-!
SHA-256 over byte lists (Go `crypto/sha256`), used by the cache key
derivation `hashURL`. Words are `Nat` reduced modulo `2 ^ 32`.
-/

/-- Reduce to a 32-bit word. -/
def w32 (x : Nat) : Nat := x % 4294967296

/-- Rotate a 32-bit word right by `n`. -/
def rotr (n x : Nat) : Nat := w32 ((x >>> n) ||| (x <<< (32 - n)))

/-- Logical shift right. -/
def shr (n x : Nat) : Nat := x >>> n

/-- Big sigma-0 function of SHA-256. -/
def bsig0 (x : Nat) : Nat := (rotr 2 x) ^^^ (rotr 13 x) ^^^ (rotr 22 x)

/-- Big sigma-1 function of SHA-256. -/
def bsig1 (x : Nat) : Nat := (rotr 6 x) ^^^ (rotr 11 x) ^^^ (rotr 25 x)

/-- Small sigma-0 function of SHA-256. -/
def ssig0 (x : Nat) : Nat := (rotr 7 x) ^^^ (rotr 18 x) ^^^ (shr 3 x)

/-- Small sigma-1 function of SHA-256. -/
def ssig1 (x : Nat) : Nat := (rotr 17 x) ^^^ (rotr 19 x) ^^^ (shr 10 x)

/-- Choice function of SHA-256 (complement taken inside 32 bits). -/
def chF (x y z : Nat) : Nat := (x &&& y) ^^^ ((x ^^^ 4294967295) &&& z)

/-- Majority function of SHA-256. -/
def majF (x y z : Nat) : Nat := (x &&& y) ^^^ (x &&& z) ^^^ (y &&& z)

/-- The 64 SHA-256 round constants. -/
def sha256K : List Nat :=
  [1116352408, 1899447441, 3049323471, 3921009573, 961987163, 1508970993,
   2453635748, 2870763221, 3624381080, 310598401, 607225278, 1426881987,
   1925078388, 2162078206, 2614888103, 3248222580, 3835390401, 4022224774,
   264347078, 604807628, 770255983, 1249150122, 1555081692, 1996064986,
   2554220882, 2821834349, 2952996808, 3210313671, 3336571891, 3584528711,
   113926993, 338241895, 666307205, 773529912, 1294757372, 1396182291,
   1695183700, 1986661051, 2177026350, 2456956037, 2730485921, 2820302411,
   3259730800, 3345764771, 3516065817, 3600352804, 4094571909, 275423344,
   430227734, 506948616, 659060556, 883997877, 958139571, 1322822218,
   1537002063, 1747873779, 1955562222, 2024104815, 2227730452, 2361852424,
   2428436474, 2756734187, 3204031479, 3329325298]

/-- The SHA-256 initial hash state. -/
def sha256H0 : List Nat :=
  [1779033703, 3144134277, 1013904242, 2773480762,
   1359893119, 2600822924, 528734635, 1541459225]

/-- Big-endian 8-byte encoding of a length in bits. -/
def beBytes8 (n : Nat) : List Nat :=
  [(n >>> 56) % 256, (n >>> 48) % 256, (n >>> 40) % 256, (n >>> 32) % 256,
   (n >>> 24) % 256, (n >>> 16) % 256, (n >>> 8) % 256, n % 256]

/-- Big-endian 4-byte encoding of a 32-bit word. -/
def beBytes4 (n : Nat) : List Nat :=
  [(n >>> 24) % 256, (n >>> 16) % 256, (n >>> 8) % 256, n % 256]

/-- SHA-256 padding: `0x80`, zeros to 56 mod 64, then the bit length. -/
def padMessage (msg : List Nat) : List Nat :=
  let L := msg.length
  let padLen := (119 - L % 64) % 64
  msg ++ 128 :: (List.replicate padLen 0 ++ beBytes8 (8 * L))

/-- Split a 64-byte block into 16 big-endian 32-bit words. -/
def wordsOfBlock : List Nat → List Nat
  | b0 :: b1 :: b2 :: b3 :: rest =>
      (((b0 * 256 + b1) * 256 + b2) * 256 + b3) :: wordsOfBlock rest
  | _ => []

/-- Next word of the message schedule, from the last 16 entries. -/
def nextW (w : List Nat) : Nat :=
  let n := w.length
  w32 (ssig1 (w.getD (n - 2) 0) + w.getD (n - 7) 0 + ssig0 (w.getD (n - 15) 0) + w.getD (n - 16) 0)

/-- The 64-entry message schedule of a block. -/
def schedule (block : List Nat) : List Nat :=
  (List.range 48).foldl (fun w _ => w ++ [nextW w]) (wordsOfBlock block)

/-- One SHA-256 round on the 8-word working state. -/
def roundStep (w : List Nat) (s : List Nat) (i : Nat) : List Nat :=
  match s with
  | [a, b, c, d, e, f, g, hh] =>
    let t1 := w32 (hh + bsig1 e + chF e f g + sha256K.getD i 0 + w.getD i 0)
    let t2 := w32 (bsig0 a + majF a b c)
    [w32 (t1 + t2), a, b, c, w32 (d + t1), e, f, g]
  | other => other

/-- Compression of one 64-byte block into the hash state. -/
def compress (h : List Nat) (block : List Nat) : List Nat :=
  let w := schedule block
  let out := (List.range 64).foldl (roundStep w) h
  List.zipWith (fun x y => w32 (x + y)) h out

/-- Fold the compression over the given number of 64-byte chunks. -/
def processChunks : Nat → List Nat → List Nat → List Nat
  | 0, h, _ => h
  | n + 1, h, bytes => processChunks n (compress h (bytes.take 64)) (bytes.drop 64)

/-- SHA-256 digest (32 bytes) of a byte list. -/
def sha256 (msg : List Nat) : List Nat :=
  let padded := padMessage msg
  (processChunks (padded.length / 64) sha256H0 padded).foldr (fun wrd acc => beBytes4 wrd ++ acc) []

/-- Lowercase hex digit for a value below 16. -/
def hexChar (n : Nat) : Char := if n < 10 then Char.ofNat (48 + n) else Char.ofNat (87 + n)

/-- Lowercase hex string of a byte list (Go `encoding/hex.EncodeToString`). -/
def hexEncode (bs : List Nat) : String :=
  String.mk (bs.foldr (fun b acc => hexChar (b / 16) :: hexChar (b % 16) :: acc) [])

/-- UTF-8 encoding of one code point. -/
def utf8Char (n : Nat) : List Nat :=
  if n < 128 then [n]
  else if n < 2048 then [192 ||| (n >>> 6), 128 ||| (n &&& 63)]
  else if n < 65536 then [224 ||| (n >>> 12), 128 ||| ((n >>> 6) &&& 63), 128 ||| (n &&& 63)]
  else [240 ||| (n >>> 18), 128 ||| ((n >>> 12) &&& 63), 128 ||| ((n >>> 6) &&& 63), 128 ||| (n &&& 63)]

/-- UTF-8 bytes of a string (Go `[]byte(s)`). -/
def utf8Bytes (s : String) : List Nat := s.data.foldr (fun c acc => utf8Char c.toNat ++ acc) []

/-!
Cache component (`internal/cache`): key derivation and the memcached
client. The provider is modelled as an association list in which the most
recent write for a key shadows older entries; provider errors on get are
treated as a miss by the source and the claims assume the provider is
available and within TTL, so expiration data is not carried in the state.
-/

/-- Embeds `hashURL`: hex-encoded SHA-256 of the raw string bytes. -/
def hashURL (url : String) : String := hexEncode (sha256 (utf8Bytes url))

/-- Embeds `generateDomainHash`: digest of the extracted hostname plus
fixed suffix, falling back to the digest of the whole input when
`GetDomain` fails. -/
def generateDomainHash (url : String) : String :=
  match GetDomain url with
  | none => hashURL url ++ "-robots-txt"
  | some domain => hashURL domain ++ "-robots-txt"

/-- Base64 value character of the standard alphabet. -/
def b64c (n : Nat) : Nat :=
  if n < 26 then 65 + n
  else if n < 52 then 71 + n
  else if n < 62 then n - 4
  else if n = 62 then 43
  else 47

/-- Standard base64 with `=` padding (Go `encoding/base64.StdEncoding`). -/
def base64Encode : List Nat → List Nat
  | a :: b :: c :: rest =>
      b64c (a >>> 2) :: b64c (((a &&& 3) <<< 4) ||| (b >>> 4)) ::
      b64c (((b &&& 15) <<< 2) ||| (c >>> 6)) :: b64c (c &&& 63) :: base64Encode rest
  | [a, b] => [b64c (a >>> 2), b64c (((a &&& 3) <<< 4) ||| (b >>> 4)), b64c ((b &&& 15) <<< 2), 61]
  | [a] => [b64c (a >>> 2), b64c ((a &&& 3) <<< 4), 61, 61]
  | [] => []

/-- Go `encoding/json.Marshal` applied to a `[]byte` value: a quoted
base64 string, as bytes. This is what `MemcachedClient.set` puts on the
wire for the robots-file payload. -/
def jsonMarshalBytes (b : List Nat) : List Nat := 34 :: (base64Encode b ++ [34])

/-- Provider state: key to stored bytes, newest entry first. -/
abbrev McStore := List (String × List Nat)

/-- Provider `Get`: the most recent value written for the key. -/
def mcGet (st : McStore) (key : String) : Option (List Nat) :=
  (st.find? (fun p => p.1 == key)).map (fun p => p.2)

/-- Provider `Set`: stores the given bytes under the key. -/
def mcSet (st : McStore) (key : String) (value : List Nat) : McStore :=
  (key, value) :: st

/-- Embeds `MemcachedClient.set`: marshals the value through
`json.Marshal` and stores the marshalled bytes. The expiration argument
is accepted and not represented in the state (claims are within TTL). -/
def set (st : McStore) (key : String) (value : List Nat) (_expiration : Nat) : McStore :=
  mcSet st key (jsonMarshalBytes value)

/-- Embeds `MemcachedClient.SaveRobotsFile`. -/
def SaveRobotsFile (st : McStore) (url : String) (robotFile : List Nat) : McStore :=
  set st (generateDomainHash url) robotFile 0

/-- Embeds `MemcachedClient.GetRobotsFile`: `some bytes` is the
`(item.Value, true)` hit, `none` the miss (cache miss and provider errors
are both reported as a miss by the source). -/
def GetRobotsFile (st : McStore) (url : String) : Option (List Nat) :=
  mcGet st (generateDomainHash url)

/-!
Persistence component (`internal/persistence/rule_repository.go`). The
database table `web_crawler.custom_rule` is modelled as a list of rows.
Per the schema description the table carries a boolean `blocked` column
next to `id`, `domain`, `robots_txt` and the timestamps; the repository
code is embedded statement by statement, keeping exactly the column lists
its SQL names. Infrastructure failures of the driver are outside the
model; `sql.ErrNoRows` is represented by `List.find?` returning `none`.
-/

/-- A row of the `web_crawler.custom_rule` table. -/
structure DbRow where
  id : Nat
  domain : String
  robots_txt : String
  blocked : Bool
  created_at : Nat
  updated_at : Nat
deriving DecidableEq

/-- Embeds `model.Rule`. -/
structure Rule where
  id : Nat
  domain : String
  blocked : Bool
  robotsTxt : String
  createdAt : Nat
  updatedAt : Nat
deriving DecidableEq

/-- The `row.Scan` of `GetByUrl`/`GetById`: the SELECT list is
`id, domain, robots_txt, created_at, updated_at`, so the rule's `Blocked`
field is never scanned and keeps the Go zero value `false`. -/
def scanRule (row : DbRow) : Rule :=
  { id := row.id, domain := row.domain, blocked := false,
    robotsTxt := row.robots_txt, createdAt := row.created_at, updatedAt := row.updated_at }

/-- Embeds `RuleRepository.GetByUrl`: derive the domain, then
`SELECT ... WHERE domain = $1`. -/
def GetByUrl (db : List DbRow) (url : String) : Except String Rule :=
  match GetDomain url with
  | none => .error "failed to parse url. invalid url. Url should contain scheme and hostname"
  | some domain =>
    match db.find? (fun r => r.domain == domain) with
    | some row => .ok (scanRule row)
    | none => .error ("rule with domain \u0027" ++ domain ++ "\u0027 not found")

/-- Embeds `RuleRepository.GetById`: `SELECT ... WHERE id = $1`. -/
def GetById (db : List DbRow) (id : String) : Except String Rule :=
  match db.find? (fun r => toString r.id == id) with
  | some row => .ok (scanRule row)
  | none => .error ("rule with id \u0027" ++ id ++ "\u0027 not found")

/-- Embeds `RuleRepository.Save`: the INSERT column list is
`(domain, robots_txt)`, so the stored row's `blocked` takes the column
default `false` whatever the given rule carries. Returns the new id. -/
def Save (db : List DbRow) (nextId : Nat) (rule : Rule) : List DbRow × Nat :=
  (db ++ [{ id := nextId, domain := rule.domain, robots_txt := rule.robotsTxt,
            blocked := false, created_at := 0, updated_at := 0 }], nextId)

/-- The `UPDATE web_crawler.custom_rule SET domain = $1, robots_txt = $2
WHERE id = $3` statement of `Update`: `blocked` is not in the SET list,
so matching rows keep their stored `blocked` value. -/
def execUpdate (db : List DbRow) (rule : Rule) : List DbRow :=
  db.map (fun r =>
    if r.id == rule.id then { r with domain := rule.domain, robots_txt := rule.robotsTxt } else r)

/-- Embeds `RuleRepository.Update`: run the UPDATE (affected-row count
ignored), then reload through `GetById(strconv.Itoa(rule.ID))`. -/
def Update (db : List DbRow) (rule : Rule) : List DbRow × Except String Rule :=
  let db2 := execUpdate db rule
  (db2, GetById db2 (toString rule.id))

/-- Embeds `RuleRepository.Delete`: `DELETE ... WHERE id = $1`, affected
count ignored, so the call succeeds whether or not a row matched. -/
def Delete (db : List DbRow) (ruleId : String) : List DbRow × Except String Unit :=
  (db.filter (fun r => !(toString r.id == ruleId)), .ok ())

/-!
Resolution handler (`handler`, function `GetAllowedCrawl` with its helper
`getRobotsTxt`). The collaborators are oracles fixed for the one request
being resolved: the repository lookup outcome, the cache lookup outcome,
the transport outcome of `requestToRobotsTxt`, and the directive
evaluator `grobotstxt.AgentAllowed`. Alongside the HTTP status handed to
`c.JSON` and the response body, the model counts the database, cache and
network calls the handler performs, so that bypass claims are statable.
-/

/-- Embeds `model.TargetResponse` (body bytes as the Go string the
handler converts them to). -/
structure TargetResponse where
  statusCode : Nat
  body : String
deriving DecidableEq

/-- Embeds `model.AllowedCrawlResponse`. -/
structure AllowedCrawlResponse where
  isAllowed : Bool
  blocked : Bool
  statusCode : Nat
  error : String
deriving DecidableEq

/-- Outcomes of the handler's collaborators for one request. -/
structure Env where
  getByUrl : Except String Rule
  cacheFile : Option String
  fetch : Except String TargetResponse
  agentAllowed : String → String → String → Bool

/-- Count of I/O calls the handler performed. -/
structure Effects where
  dbGets : Nat
  cacheGets : Nat
  cachePuts : Nat
  fetches : Nat
deriving DecidableEq

/-- The all-zero effect count. -/
def noEffects : Effects := { dbGets := 0, cacheGets := 0, cachePuts := 0, fetches := 0 }

/-- Embeds the `isSuccess` helper. -/
def isSuccess (statusCode : Nat) : Bool := 200 ≤ statusCode && statusCode < 300

/-- Result of the `getRobotsTxt` helper together with its effects. -/
structure FetchOut where
  result : Except String TargetResponse
  eff : Effects

/-- Embeds `RuleApiHandler.getRobotsTxt`: cache first; on a hit a
synthetic 200 with the cached bytes; on a miss one live fetch, and a
cache write only for a 2xx response with a non-empty body. -/
def getRobotsTxt (env : Env) : FetchOut :=
  match env.cacheFile with
  | some file =>
    { result := .ok { statusCode := 200, body := file },
      eff := { dbGets := 0, cacheGets := 1, cachePuts := 0, fetches := 0 } }
  | none =>
    match env.fetch with
    | .error e =>
      { result := .error e,
        eff := { dbGets := 0, cacheGets := 1, cachePuts := 0, fetches := 1 } }
    | .ok t =>
      if isSuccess t.statusCode ∧ t.body ≠ "" then
        { result := .ok t,
          eff := { dbGets := 0, cacheGets := 1, cachePuts := 1, fetches := 1 } }
      else
        { result := .ok t,
          eff := { dbGets := 0, cacheGets := 1, cachePuts := 0, fetches := 1 } }

/-- HTTP status handed to `c.JSON`, the response, and the I/O effects. -/
structure HandlerOut where
  httpStatus : Nat
  response : AllowedCrawlResponse
  eff : Effects
deriving DecidableEq

/-- Whether the override branch of `GetAllowedCrawl` is taken:
`err == nil && rule != nil && rule.RobotsTxt != ""`. -/
def hasOverride (env : Env) : Bool :=
  match env.getByUrl with
  | .ok rule => rule.robotsTxt != ""
  | .error _ => false

/-- Embeds `RuleApiHandler.GetAllowedCrawl`, branch for branch. -/
def GetAllowedCrawl (env : Env) (url userAgent : String) : HandlerOut :=
  if url = "" then
    { httpStatus := 400,
      response := { isAllowed := false, blocked := false, statusCode := 400,
                    error := "\u0027url\u0027 query parameter is required" },
      eff := noEffects }
  else if userAgent = "" then
    { httpStatus := 400,
      response := { isAllowed := false, blocked := false, statusCode := 400,
                    error := "\u0027user_agent\u0027 query parameter is required" },
      eff := noEffects }
  else
    let finish := fun (robotsTxt : String) (blocked : Bool) (tstatus : Nat) (eff : Effects) =>
      if env.agentAllowed robotsTxt userAgent url then
        { httpStatus := 200,
          response := { isAllowed := true, blocked := blocked, statusCode := tstatus, error := "" },
          eff := eff : HandlerOut }
      else
        { httpStatus := 200,
          response := { isAllowed := false, blocked := blocked, statusCode := tstatus, error := "" },
          eff := eff }
    let fallback :=
      let fo := getRobotsTxt env
      let eff := { fo.eff with dbGets := 1 }
      match fo.result with
      | .error e =>
        { httpStatus := 500,
          response := { isAllowed := false, blocked := false, statusCode := 500, error := e },
          eff := eff : HandlerOut }
      | .ok t =>
        if isSuccess t.statusCode then
          finish t.body false t.statusCode eff
        else
          { httpStatus := 200,
            response := { isAllowed := false, blocked := false, statusCode := t.statusCode,
                          error := t.body },
            eff := eff }
    match env.getByUrl with
    | .ok rule =>
      if rule.robotsTxt ≠ "" then
        finish rule.robotsTxt rule.blocked 200
          { dbGets := 1, cacheGets := 0, cachePuts := 0, fetches := 0 }
      else fallback
    | .error _ => fallback

/-!
Helper lemmas shared between claims.
-/

/-- Length of a base64 encoding: four output bytes per started triple. -/
theorem base64Encode_length : ∀ b : List Nat, (base64Encode b).length = 4 * ((b.length + 2) / 3)
  | [] => by simp [base64Encode]
  | [_] => by simp [base64Encode]
  | [_, _] => by simp [base64Encode]
  | _ :: _ :: _ :: rest => by
      have ih := base64Encode_length rest
      simp only [base64Encode, List.length_cons, ih]
      omega

/-- Length of the JSON envelope: two quotes around the base64 payload. -/
theorem jsonMarshalBytes_length (b : List Nat) :
    (jsonMarshalBytes b).length = 2 + 4 * ((b.length + 2) / 3) := by
  simp [jsonMarshalBytes, base64Encode_length]
  omega

/-- The JSON envelope is always strictly longer than the payload, so it
never equals it. -/
theorem jsonMarshalBytes_ne (b : List Nat) : jsonMarshalBytes b ≠ b := by
  intro hcontra
  have hl := congrArg List.length hcontra
  rw [jsonMarshalBytes_length] at hl
  omega

/-- Saving then reading a robots file for the same input string hits the
entry just written (the derived key is the same total function on both
paths) and returns the stored bytes, which are the marshalled envelope. -/
theorem save_get_consistent (st : McStore) (url : String) (b : List Nat) :
    GetRobotsFile (SaveRobotsFile st url b) url = some (jsonMarshalBytes b) := by
  simp [GetRobotsFile, SaveRobotsFile, set, mcSet, mcGet]

/-- Claim C2: reading the robots-file cache after writing bytes `b` does
NOT return `b`: `MemcachedClient.set` marshals the value through
`json.Marshal` (a quoted base64 envelope for a `[]byte`) while
`GetRobotsFile` returns the stored `item.Value` verbatim without
unmarshalling, so the hit returns the envelope bytes, which are never
equal to `b`. This refutes the write-read identity the claim states. -/
theorem cache_roundtrip_returns_envelope (st : McStore) (url : String) (b : List Nat) :
    GetRobotsFile (SaveRobotsFile st url b) url = some (jsonMarshalBytes b) ∧
    jsonMarshalBytes b ≠ b := by
  exact ⟨save_get_consistent st url b, jsonMarshalBytes_ne b⟩

/-- Claim C9: repository `Delete` succeeds for every id against every
table state, including an id with no matching row; deleting the same id
twice succeeds both times, and the second delete leaves the table
unchanged. -/
theorem delete_idempotent (db : List DbRow) (ruleId : String) :
    (Delete db ruleId).2 = .ok () ∧
    (Delete (Delete db ruleId).1 ruleId).2 = .ok () ∧
    (Delete (Delete db ruleId).1 ruleId).1 = (Delete db ruleId).1 := by
  refine ⟨rfl, rfl, ?_⟩
  simp [Delete, List.filter_filter]

/-- Database row for the claim C3 scenario: a persisted override rule for
`example.com` whose `blocked` column is `true`. -/
def c3Row : DbRow :=
  { id := 1, domain := "example.com", robots_txt := "User-agent: *\nDisallow: /",
    blocked := true, created_at := 0, updated_at := 0 }

/-- Handler environment for the claim C3 scenario: repository lookup
through the real `GetByUrl` over that table. -/
def c3Env : Env :=
  { getByUrl := GetByUrl [c3Row] "https://example.com/page",
    cacheFile := none,
    fetch := .error "unused",
    agentAllowed := fun _ _ _ => false }

/-- Claim C3, evaluation at a failing input: the override row is
persisted with `blocked = true` and its rule is used (the override branch
is taken), yet the response reports `blocked = false`, because the
`SELECT` list of `GetByUrl` omits the `blocked` column and the scanned
rule keeps the Go zero value. -/
theorem blocked_not_loaded_from_db :
    c3Row.blocked = true ∧
    hasOverride c3Env = true ∧
    (GetAllowedCrawl c3Env "https://example.com/page" "bot").response.blocked = false := by
  refine ⟨rfl, ?_, ?_⟩ <;> decide

/-- Table for the claim C4 scenario: one rule with id 1, `blocked` false. -/
def c4Db : List DbRow :=
  [{ id := 1, domain := "example.com", robots_txt := "old",
     blocked := false, created_at := 0, updated_at := 0 }]

/-- Update payload for the claim C4 scenario: new text and
`blocked = true` for id 1. -/
def c4Rule : Rule :=
  { id := 1, domain := "example.com", blocked := true,
    robotsTxt := "new", createdAt := 0, updatedAt := 0 }

/-- Claim C4, evaluation at a failing input: `Update` rewrites `domain`
and `robots_txt` but its `SET` list omits `blocked`, so the stored row
and the reloaded result keep `blocked = false` although the given rule
carries `blocked = true`. The not-found half of the claim does hold: for
an id with no row, the reload reports the not-found error. -/
theorem update_does_not_write_blocked :
    c4Rule.blocked = true ∧
    (Update c4Db c4Rule).1 =
      [{ id := 1, domain := "example.com", robots_txt := "new",
         blocked := false, created_at := 0, updated_at := 0 }] ∧
    (Update c4Db c4Rule).2 =
      .ok { id := 1, domain := "example.com", blocked := false,
            robotsTxt := "new", createdAt := 0, updatedAt := 0 } ∧
    (Update c4Db { c4Rule with id := 2 }).2 = .error "rule with id \u00272\u0027 not found" := by
  exact ⟨rfl, rfl, rfl, rfl⟩

/-- Claim C1: with non-empty `url` and `userAgent`, when the repository
lookup returns a rule with non-empty `robotsTxt`, the handler performs
no cache get, no cache put and no live fetch, reports status code 200
(both in the body and to `c.JSON`), and the allow decision is the
directive evaluator applied to that rule text. -/
theorem override_short_circuits (env : Env) (url userAgent : String) (rule : Rule)
    (hu : url ≠ "") (ha : userAgent ≠ "")
    (hr : env.getByUrl = .ok rule) (ht : rule.robotsTxt ≠ "") :
    (GetAllowedCrawl env url userAgent).response.statusCode = 200 ∧
    (GetAllowedCrawl env url userAgent).httpStatus = 200 ∧
    (GetAllowedCrawl env url userAgent).eff.cacheGets = 0 ∧
    (GetAllowedCrawl env url userAgent).eff.cachePuts = 0 ∧
    (GetAllowedCrawl env url userAgent).eff.fetches = 0 ∧
    (GetAllowedCrawl env url userAgent).response.isAllowed
      = env.agentAllowed rule.robotsTxt userAgent url ∧
    (GetAllowedCrawl env url userAgent).response.blocked = rule.blocked := by
  simp only [GetAllowedCrawl, if_neg hu, if_neg ha, hr]
  rw [if_pos ht]
  by_cases hA : env.agentAllowed rule.robotsTxt userAgent url <;> simp [hA]

/-- Override rule of the concrete claim C1 scenario. -/
def c1Rule : Rule :=
  { id := 1, domain := "example.com", blocked := true,
    robotsTxt := "User-agent: *\nDisallow: /", createdAt := 0, updatedAt := 0 }

/-- Environment of the concrete claim C1 scenario: an override present
next to a populated cache and a reachable upstream, neither of which may
be consulted. -/
def c1Env : Env :=
  { getByUrl := .ok c1Rule,
    cacheFile := some "User-agent: *\nAllow: /",
    fetch := .ok { statusCode := 200, body := "User-agent: *\nAllow: /" },
    agentAllowed := fun _ _ _ => false }

/-- Witness for claim C1 at a concrete request. -/
theorem override_short_circuits_w :
    (GetAllowedCrawl c1Env "https://example.com/test" "bot").response.statusCode = 200 ∧
    (GetAllowedCrawl c1Env "https://example.com/test" "bot").httpStatus = 200 ∧
    (GetAllowedCrawl c1Env "https://example.com/test" "bot").eff.cacheGets = 0 ∧
    (GetAllowedCrawl c1Env "https://example.com/test" "bot").eff.cachePuts = 0 ∧
    (GetAllowedCrawl c1Env "https://example.com/test" "bot").eff.fetches = 0 ∧
    (GetAllowedCrawl c1Env "https://example.com/test" "bot").response.isAllowed
      = c1Env.agentAllowed c1Rule.robotsTxt "bot" "https://example.com/test" ∧
    (GetAllowedCrawl c1Env "https://example.com/test" "bot").response.blocked = c1Rule.blocked :=
  override_short_circuits c1Env "https://example.com/test" "bot" c1Rule
    (by decide) (by decide) rfl (by decide)

/-- Claim C5: with no usable override, a cache miss and a transport-level
fetch failure carrying message `e`, the handler returns the internal
error result: HTTP 500, body status code 500, the cause `e` verbatim as
the error text (non-empty when the cause is), `isAllowed = false` — and
not a normal 200 disallow answer. -/
theorem transport_failure_yields_500 (env : Env) (url userAgent e : String)
    (hu : url ≠ "") (ha : userAgent ≠ "") (hov : hasOverride env = false)
    (hc : env.cacheFile = none) (hf : env.fetch = .error e) (he : e ≠ "") :
    (GetAllowedCrawl env url userAgent).httpStatus = 500 ∧
    (GetAllowedCrawl env url userAgent).response.statusCode = 500 ∧
    (GetAllowedCrawl env url userAgent).response.error = e ∧
    (GetAllowedCrawl env url userAgent).response.error ≠ "" ∧
    (GetAllowedCrawl env url userAgent).response.isAllowed = false := by
  unfold hasOverride at hov
  cases hre : env.getByUrl with
  | ok rule =>
    rw [hre] at hov
    have hempty : rule.robotsTxt = "" := by
      by_contra hne
      simp [hne] at hov
    simp [GetAllowedCrawl, getRobotsTxt, if_neg hu, if_neg ha, hre, hempty, hc, hf, he]
  | error msg =>
    simp [GetAllowedCrawl, getRobotsTxt, if_neg hu, if_neg ha, hre, hc, hf, he]

/-- Environment of the concrete claim C5 scenario. -/
def c5Env : Env :=
  { getByUrl := .error "rule not found",
    cacheFile := none,
    fetch := .error "connection refused",
    agentAllowed := fun _ _ _ => true }

/-- Witness for claim C5 at a concrete request. -/
theorem transport_failure_yields_500_w :
    (GetAllowedCrawl c5Env "https://example.com/test" "bot").httpStatus = 500 ∧
    (GetAllowedCrawl c5Env "https://example.com/test" "bot").response.statusCode = 500 ∧
    (GetAllowedCrawl c5Env "https://example.com/test" "bot").response.error
      = "connection refused" ∧
    (GetAllowedCrawl c5Env "https://example.com/test" "bot").response.error ≠ "" ∧
    (GetAllowedCrawl c5Env "https://example.com/test" "bot").response.isAllowed = false :=
  transport_failure_yields_500 c5Env "https://example.com/test" "bot" "connection refused"
    (by decide) (by decide) (by decide) rfl rfl (by decide)

/-- Claim C6: with no usable override and a cache miss, a fetch that
succeeds at the transport level with a non-2xx status yields a success
response (HTTP 200) whose body is `allowed = false`, the upstream status
code, and the upstream body as the error text; the fetched bytes are not
written to the cache. -/
theorem non2xx_disallow_no_cache_write (env : Env) (url userAgent : String)
    (t : TargetResponse)
    (hu : url ≠ "") (ha : userAgent ≠ "") (hov : hasOverride env = false)
    (hc : env.cacheFile = none) (hf : env.fetch = .ok t)
    (hs : isSuccess t.statusCode = false) :
    (GetAllowedCrawl env url userAgent).httpStatus = 200 ∧
    (GetAllowedCrawl env url userAgent).response =
      { isAllowed := false, blocked := false, statusCode := t.statusCode, error := t.body } ∧
    (GetAllowedCrawl env url userAgent).eff.cachePuts = 0 ∧
    (GetAllowedCrawl env url userAgent).eff.fetches = 1 := by
  unfold hasOverride at hov
  cases hre : env.getByUrl with
  | ok rule =>
    rw [hre] at hov
    have hempty : rule.robotsTxt = "" := by
      by_contra hne
      simp [hne] at hov
    simp [GetAllowedCrawl, getRobotsTxt, if_neg hu, if_neg ha, hre, hempty, hc, hf, hs]
  | error msg =>
    simp [GetAllowedCrawl, getRobotsTxt, if_neg hu, if_neg ha, hre, hc, hf, hs]

/-- Environment of the concrete claim C6 scenario: upstream answers 404. -/
def c6Env : Env :=
  { getByUrl := .error "rule not found",
    cacheFile := none,
    fetch := .ok { statusCode := 404, body := "File not found" },
    agentAllowed := fun _ _ _ => true }

/-- Witness for claim C6 at a concrete request. -/
theorem non2xx_disallow_no_cache_write_w :
    (GetAllowedCrawl c6Env "https://example.com/test" "bot").httpStatus = 200 ∧
    (GetAllowedCrawl c6Env "https://example.com/test" "bot").response =
      { isAllowed := false, blocked := false, statusCode := 404, error := "File not found" } ∧
    (GetAllowedCrawl c6Env "https://example.com/test" "bot").eff.cachePuts = 0 ∧
    (GetAllowedCrawl c6Env "https://example.com/test" "bot").eff.fetches = 1 :=
  non2xx_disallow_no_cache_write c6Env "https://example.com/test" "bot"
    { statusCode := 404, body := "File not found" }
    (by decide) (by decide) (by decide) rfl rfl (by decide)

/-- Claim C8: a request with a missing `url` query parameter is answered
with exactly the 400 validation body the claim quotes, and a missing
`user_agent` with the corresponding 400 body; in both cases the effect
counters show zero database, cache and network calls. -/
theorem missing_params_validated_before_io (env : Env) (url : String)
    (hu : url ≠ "") :
    (∀ userAgent, GetAllowedCrawl env "" userAgent =
      { httpStatus := 400,
        response := { isAllowed := false, blocked := false, statusCode := 400,
                      error := "\u0027url\u0027 query parameter is required" },
        eff := noEffects }) ∧
    GetAllowedCrawl env url "" =
      { httpStatus := 400,
        response := { isAllowed := false, blocked := false, statusCode := 400,
                      error := "\u0027user_agent\u0027 query parameter is required" },
        eff := noEffects } := by
  constructor
  · intro userAgent
    rfl
  · unfold GetAllowedCrawl
    rw [if_neg hu]
    rfl

/-- Witness for claim C8 at a concrete request. -/
theorem missing_params_validated_before_io_w :
    GetAllowedCrawl c1Env "" "bot" =
      { httpStatus := 400,
        response := { isAllowed := false, blocked := false, statusCode := 400,
                      error := "\u0027url\u0027 query parameter is required" },
        eff := noEffects } ∧
    GetAllowedCrawl c1Env "https://example.com/test" "" =
      { httpStatus := 400,
        response := { isAllowed := false, blocked := false, statusCode := 400,
                      error := "\u0027user_agent\u0027 query parameter is required" },
        eff := noEffects } :=
  ⟨(missing_params_validated_before_io c1Env "https://example.com/test" (by decide)).1 "bot",
   (missing_params_validated_before_io c1Env "https://example.com/test" (by decide)).2⟩

set_option maxRecDepth 100000 in
/-- Claim C7 counterexample: Go `url.Parse` keeps the hostname's letter
case, so the derived keys for hosts `A` and `a` differ, and the key for
host `A` is not the digest of the lowercase hostname plus suffix. -/
theorem domain_hash_case_sensitive :
    GetDomain "http://A/page" = some "A" ∧
    GetDomain "http://a/page" = some "a" ∧
    generateDomainHash "http://A/page" ≠ generateDomainHash "http://a/page" ∧
    generateDomainHash "http://A/page" ≠ hashURL "a" ++ "-robots-txt" := by
  refine ⟨rfl, rfl, ?_, ?_⟩ <;> decide

/-- Claim C7 as amended: the derived key is the digest of the hostname
exactly as it appears in the URL (case preserved) plus the fixed suffix,
so any two URLs from which the same hostname string is extracted —
whatever their scheme spelling, path or query — derive equal keys. -/
theorem domain_hash_stable (u1 u2 d : String)
    (h1 : GetDomain u1 = some d) (h2 : GetDomain u2 = some d) :
    generateDomainHash u1 = generateDomainHash u2 ∧
    generateDomainHash u1 = hashURL d ++ "-robots-txt" := by
  unfold generateDomainHash
  rw [h1, h2]
  exact ⟨rfl, rfl⟩

/-- Witness for the amended claim C7 at two concrete URLs sharing a
hostname but differing in path and query. -/
theorem domain_hash_stable_w :
    GetDomain "https://example.com/a?x=1" = some "example.com" ∧
    GetDomain "https://example.com/b" = some "example.com" ∧
    generateDomainHash "https://example.com/a?x=1"
      = generateDomainHash "https://example.com/b" :=
  ⟨rfl, rfl, (domain_hash_stable "https://example.com/a?x=1" "https://example.com/b"
    "example.com" rfl rfl).1⟩

/-- Claim C10: key derivation is total — when hostname extraction fails
the key falls back to the digest of the entire input plus the fixed
suffix — and with that key a save followed by a get succeeds for any
input string whatsoever, returning the stored bytes. -/
theorem domain_hash_total_fallback (st : McStore) (s : String) (b : List Nat)
    (h : GetDomain s = none) :
    generateDomainHash s = hashURL s ++ "-robots-txt" ∧
    GetRobotsFile (SaveRobotsFile st s b) s = some (jsonMarshalBytes b) := by
  constructor
  · unfold generateDomainHash
    rw [h]
  · exact save_get_consistent st s b

/-- Witness for claim C10 at a string that lacks a scheme and so fails
hostname extraction. -/
theorem domain_hash_total_fallback_w :
    GetDomain "example.com" = none ∧
    generateDomainHash "example.com" = hashURL "example.com" ++ "-robots-txt" ∧
    GetRobotsFile (SaveRobotsFile [] "example.com" [65]) "example.com"
      = some (jsonMarshalBytes [65]) :=
  ⟨rfl, (domain_hash_total_fallback [] "example.com" [65] rfl).1,
    (domain_hash_total_fallback [] "example.com" [65] rfl).2⟩

end RuleApi
